import Mathlib

/-!
Verification development for the CSV analysis and aggregation server
(`csv_server.py`).  The file shallowly embeds the server's table model,
its statistics engine (`read_csv`) and its group-by aggregator
(`aggregate_csv`) in Lean, and proves theorems about the embedded
operations.

Conventions of the embedding:
* pandas/numpy numerics (int64 and float64 values) are embedded as exact
  rationals `ℚ`; the float `NaN`, which pandas uses as its missing-value
  marker, is a distinguished value `PyVal.nan`;
* sample standard deviation produces `√v` for a rational variance `v`,
  which is irrational in general; it is kept exactly as `PyVal.sqrtRat v`;
* fallible Python code (`try`/`except`, raising library calls) is embedded
  with `Except`, and the `@mcp.tool` operation boundary converts those
  failures into the same structured error envelope the Python code builds;
* the response JSON is modelled structurally (records instead of rendered
  JSON text); the error strings of the envelopes are modelled exactly.
-/

namespace CsvServer

/-- A scalar value as it lives in a loaded pandas table or results from a
reduction.  Numbers are embedded exactly as rationals (`rat`); `nan` is the
float NaN that pandas uses as its missing-value marker; `sqrtRat q` is the
exact value `√q`, which arises (only) from sample standard deviation and is
irrational in general; `str` is a Python string. -/
inductive PyVal where
  | nan : PyVal
  | rat (q : ℚ) : PyVal
  | sqrtRat (q : ℚ) : PyVal
  | str (s : String) : PyVal
deriving DecidableEq

/-- Addition on `ℚ`, written so that the kernel can evaluate it (the core
`Rat.add` is `irreducible`); `ratAdd_eq` proves it is exactly `+`. -/
def ratAdd (a b : ℚ) : ℚ := mkRat (a.num * b.den + b.num * a.den) (a.den * b.den)


/-- Subtraction on `ℚ`, kernel-evaluable; `ratSub_eq` proves it is `-`. -/
def ratSub (a b : ℚ) : ℚ := mkRat (a.num * b.den - b.num * a.den) (a.den * b.den)


/-- Multiplication on `ℚ`, kernel-evaluable; `ratMul_eq` proves it is `*`. -/
def ratMul (a b : ℚ) : ℚ := mkRat (a.num * b.num) (a.den * b.den)


/-- Inverse on `ℚ`, kernel-evaluable; `ratInv_eq` proves it is `⁻¹`. -/
def ratInv (a : ℚ) : ℚ :=
  if a.num < 0 then mkRat (-(a.den : Int)) a.num.natAbs
  else mkRat (a.den : Int) a.num.natAbs


/-- Division on `ℚ`, kernel-evaluable; `ratDiv_eq` proves it is `/`. -/
def ratDiv (a b : ℚ) : ℚ := ratMul a (ratInv b)


/-- Sum of a list of rationals through `ratAdd`; equals `List.sum`. -/
def sumQ : List ℚ → ℚ
  | [] => 0
  | x :: xs => ratAdd x (sumQ xs)


/-- Codepoint-lexicographic `≤` on lists of characters: exactly the string
comparison Python performs. -/
def charListLe : List Char → List Char → Bool
  | [], _ => true
  | _ :: _, [] => false
  | c :: cs, d :: ds => if c = d then charListLe cs ds else decide (c < d)

/-- Python's string `<=` (codepoint-lexicographic). -/
def pyStrLe (a b : String) : Bool := charListLe a.data b.data

/-- Python's string `<` (codepoint-lexicographic). -/
def pyStrLt (a b : String) : Bool := pyStrLe a b && !(pyStrLe b a)


/-- Rank of a `PyVal` constructor, used to give cross-type comparisons a
total order (within one loaded CSV column all values share one type, so the
cross-type branch never decides a real pandas comparison). -/
def PyVal.rank : PyVal → ℕ
  | .nan => 0
  | .rat _ => 1
  | .sqrtRat _ => 2
  | .str _ => 3

/-- Total comparison on scalar values: numeric order on numbers, Python's
codepoint-lexicographic order on strings, constructor rank across types. -/
def PyVal.leB : PyVal → PyVal → Bool
  | .rat a, .rat b => decide (a ≤ b)
  | .sqrtRat a, .sqrtRat b => decide (a ≤ b)
  | .str a, .str b => pyStrLe a b
  | a, b => decide (a.rank ≤ b.rank)


/-- Lexicographic comparison of group-key tuples: keys are compared
column by column in group-column order, exactly how pandas sorts the
compound keys of `df.groupby([...], sort=True)`. -/
def keyLeB : List PyVal → List PyVal → Bool
  | [], _ => true
  | _ :: _, [] => false
  | a :: as, b :: bs => if a = b then keyLeB as bs else a.leB b

/-- The key order as a decidable relation, for `List.insertionSort`. -/
def KeyLe (a b : List PyVal) : Prop := keyLeB a b = true

instance : DecidableRel KeyLe := fun _ _ => inferInstanceAs (Decidable (_ = true))


/-- Python's `str.split(",")`: cut the character list at every comma;
`""` splits to `[""]`, and empty pieces are kept. -/
def splitCommaAux : List Char → List Char → List (List Char)
  | [], acc => [acc.reverse]
  | c :: cs, acc =>
    if c = ',' then acc.reverse :: splitCommaAux cs [] else splitCommaAux cs (c :: acc)

/-- Python's `str.strip()` on a character list: drop whitespace from both
ends. -/
def stripChars (cs : List Char) : List Char :=
  ((cs.dropWhile Char.isWhitespace).reverse.dropWhile Char.isWhitespace).reverse

/-- Python's `str.strip()`. -/
def pyStrip (s : String) : String := String.mk (stripChars s.data)

/-- Python's `str.lower()` (per-character lowercasing). -/
def pyLower (s : String) : String := String.mk (s.data.map Char.toLower)

/-- The group-by argument preprocessing of `aggregate_csv`:
`[col.strip() for col in group_by.split(",") if col.strip()]`. -/
def parseGroupCols (group_by : String) : List String :=
  ((splitCommaAux group_by.data []).map fun cs => String.mk (stripChars cs)).filter
    fun c => c ≠ ""

/-- Numeric value of a decimal-digit character. -/
def digitVal (c : Char) : ℕ := c.toNat - 48

/-- Fold a block of decimal digits to a natural number; `none` unless the
block is nonempty and all digits. -/
def digitsVal : List Char → Option ℕ
  | [] => none
  | cs =>
    if cs.all Char.isDigit then some (cs.foldl (fun acc c => acc * 10 + digitVal c) 0)
    else none

/-- The mantissa part of a Python float literal: digits with an optional
decimal point, at least one digit in total.  Returns numerator and
denominator-exponent (the value is `num / 10 ^ exp`). -/
def parseMantissa (cs : List Char) : Option (ℕ × ℕ) :=
  match cs.splitOn '.' with
  | [ip] => (digitsVal ip).map fun n => (n, 0)
  | [ip, fp] =>
    match digitsVal ip, digitsVal fp with
    | some n, some f => some (n * 10 ^ fp.length + f, fp.length)
    | some n, none => if fp = [] then some (n, 0) else none
    | none, some f => if ip = [] then some (f, fp.length) else none
    | none, none => none
  | _ => none

/-- The exponent part of a Python float literal: optional sign, then
digits. -/
def parseExponent (cs : List Char) : Option Int :=
  match cs with
  | '+' :: ds => (digitsVal ds).map fun n => (n : Int)
  | '-' :: ds => (digitsVal ds).map fun n => -(n : Int)
  | ds => (digitsVal ds).map fun n => (n : Int)

/-- Assemble a rational from sign, mantissa and exponent:
`sign * num / 10 ^ exp * 10 ^ e`. -/
def assembleFloat (sign : Int) (num : ℕ) (exp : ℕ) (e : Int) : ℚ :=
  if (e : Int) - (exp : Int) ≥ 0 then
    mkRat (sign * (num : Int) * 10 ^ (e - (exp : Int)).natAbs) 1
  else
    mkRat (sign * (num : Int)) (10 ^ ((exp : Int) - e).natAbs)

/-- Python's `float(str)` on the numeric-literal forms: optional
surrounding whitespace, optional sign, digits with optional decimal point,
optional exponent.  (The special forms `inf`/`nan` and underscore
separators are outside the domain this system ever feeds to `float`.) -/
def parseFloat (s : String) : Option ℚ :=
  let cs := stripChars s.data
  let (sign, body) : Int × List Char :=
    match cs with
    | '+' :: rest => (1, rest)
    | '-' :: rest => (-1, rest)
    | rest => (1, rest)
  match body.splitOn 'e' with
  | [m] =>
    match m.splitOn 'E' with
    | [m'] => (parseMantissa m').map fun (n, exp) => assembleFloat sign n exp 0
    | [m', ex] =>
      match parseMantissa m', parseExponent ex with
      | some (n, exp), some e => some (assembleFloat sign n exp e)
      | _, _ => none
    | _ => none
  | [m, ex] =>
    match parseMantissa m, parseExponent ex with
    | some (n, exp), some e => some (assembleFloat sign n exp e)
    | _, _ => none
  | _ => none

/-- Is this value the missing-value marker (pandas `isna`)? -/
def PyVal.isNA : PyVal → Bool
  | .nan => true
  | _ => false

/-- The non-null values of a column, in order (pandas `dropna`). -/
def nonNA (vs : List PyVal) : List PyVal := vs.filter fun v => !v.isNA

/-- The rational (numeric) values of a list. -/
def ratVals (vs : List PyVal) : List ℚ :=
  vs.filterMap fun v => match v with | .rat q => some q | _ => none

/-- The string values of a list. -/
def strVals (vs : List PyVal) : List String :=
  vs.filterMap fun v => match v with | .str s => some s | _ => none

/-- Does every value of the list carry a rational number? -/
def allRat (vs : List PyVal) : Bool :=
  vs.all fun v => match v with | .rat _ => true | _ => false

/-- Does every value of the list carry a string? -/
def allStr (vs : List PyVal) : Bool :=
  vs.all fun v => match v with | .str _ => true | _ => false

/-- pandas `min` over numeric values; NaN on an empty input. -/
def minQ : List ℚ → PyVal
  | [] => .nan
  | x :: xs => .rat (xs.foldl min x)

/-- pandas `max` over numeric values; NaN on an empty input. -/
def maxQ : List ℚ → PyVal
  | [] => .nan
  | x :: xs => .rat (xs.foldl max x)

/-- pandas `mean` over numeric values; NaN on an empty input. -/
def meanQ (xs : List ℚ) : PyVal :=
  if xs.length = 0 then .nan else .rat (ratDiv (sumQ xs) (xs.length : ℚ))

/-- pandas `median` over numeric values: middle element of the sorted list,
or the average of the two middle elements; NaN on an empty input. -/
def medianQ (xs : List ℚ) : PyVal :=
  if xs.length = 0 then .nan
  else
    let s := xs.insertionSort (· ≤ ·)
    if xs.length % 2 = 1 then .rat (s.getD (xs.length / 2) 0)
    else .rat (ratDiv (ratAdd (s.getD (xs.length / 2 - 1) 0) (s.getD (xs.length / 2) 0)) 2)

/-- Sample variance (denominator `n − 1`), as pandas `var` computes it. -/
def sampleVarQ (xs : List ℚ) : ℚ :=
  let m := ratDiv (sumQ xs) (xs.length : ℚ)
  ratDiv (sumQ (xs.map fun x => ratMul (ratSub x m) (ratSub x m))) (ratSub (xs.length : ℚ) 1)

/-- pandas `std` (sample standard deviation, `ddof = 1`): NaN for fewer
than two values — the 0/0 of the `n − 1` denominator — else `√variance`. -/
def stdQ (xs : List ℚ) : PyVal :=
  if xs.length ≤ 1 then .nan else .sqrtRat (sampleVarQ xs)

/-- Python `min` over strings: first occurrence of the smallest string. -/
def minS : List String → PyVal
  | [] => .nan
  | x :: xs => .str (xs.foldl (fun a b => if pyStrLt b a then b else a) x)

/-- Python `max` over strings: first occurrence of the largest string. -/
def maxS : List String → PyVal
  | [] => .nan
  | x :: xs => .str (xs.foldl (fun a b => if pyStrLt a b then b else a) x)

/-- pandas `sum` over an object column of strings: concatenation. -/
def concatS : List String → PyVal
  | [] => .nan
  | x :: xs => .str (xs.foldl (· ++ ·) x)

/-- One pandas reduction `agg(fn)` over the values of a column (or of one
group).  NaN entries are skipped (pandas default `skipna`), except that
`count` is exactly the count of non-null entries.  A loaded CSV column is
homogeneous — numeric (`rat`/`nan`) or object (`str`/`nan`) — and the two
branches mirror pandas on each; reductions that pandas cannot perform raise
`TypeError` (e.g. `mean` over strings).  Errors carry the exception type
name. -/
def reduce (fn : String) (vals : List PyVal) : Except String PyVal :=
  let nn := nonNA vals
  if fn = "count" then .ok (.rat ((nn.length : ℚ)))
  else if allRat nn then
    let xs := ratVals nn
    if fn = "sum" then .ok (.rat (sumQ xs))
    else if fn = "mean" then .ok (meanQ xs)
    else if fn = "median" then .ok (medianQ xs)
    else if fn = "min" then .ok (minQ xs)
    else if fn = "max" then .ok (maxQ xs)
    else if fn = "std" then .ok (stdQ xs)
    else .error "ValueError"
  else if allStr nn then
    if fn = "sum" then .ok (concatS (strVals nn))
    else if fn = "min" then .ok (minS (strVals nn))
    else if fn = "max" then .ok (maxS (strVals nn))
    else .error "TypeError"
  else .error "TypeError"

/-- Python's `float(x)` applied to a reduction result, as in
`float(df[agg_column].agg(agg_function))`: numbers (NaN included) pass
through, strings are parsed as float literals and raise `ValueError` when
unparsable. -/
def pyFloat : PyVal → Except String PyVal
  | .str s =>
    match parseFloat s with
    | some q => .ok (.rat q)
    | none => .error "ValueError"
  | v => .ok v

/-- The in-memory table `pd.read_csv` produces: named columns and a list of
rows, each row one value per column. -/
structure Table where
  cols : List String
  rows : List (List PyVal)
deriving DecidableEq

/-- The value of row `r` in column `c` (columns were validated to exist
before any lookup the operations perform). -/
def cellAt (t : Table) (r : List PyVal) (c : String) : PyVal :=
  match t.cols.findIdx? (· == c) with
  | some i => r.getD i .nan
  | none => .nan

/-- The values of column `c`, one per row. -/
def Table.col (t : Table) (c : String) : List PyVal := t.rows.map fun r => cellAt t r c

/-- The group key of a row: the tuple of its group-by column values. -/
def rowKey (t : Table) (gcols : List String) (r : List PyVal) : List PyVal :=
  gcols.map fun c => cellAt t r c

/-- Does the row have a fully non-null group key?  `df.groupby` (default
`dropna=True`) silently drops rows whose key contains NaN. -/
def keyOkB (t : Table) (gcols : List String) (r : List PyVal) : Bool :=
  (rowKey t gcols r).all fun v => !v.isNA

/-- Is the value an int64 slot (an integer, with no NaN possible)? -/
def isIntVal : PyVal → Bool
  | .rat q => q.den == 1
  | _ => false

/-- Is the value a float64 slot (a number or NaN)? -/
def isNumOrNA : PyVal → Bool
  | .rat _ => true
  | .nan => true
  | _ => false

/-- The dtype `pd.read_csv` infers for a column: `int64` when every cell is
an integer, `float64` when every cell is numeric or missing, otherwise
`object`; a column with no rows stays `object`. -/
def dtypeOf (vals : List PyVal) : String :=
  if vals.isEmpty then "object"
  else if vals.all isIntVal then "int64"
  else if vals.all isNumOrNA then "float64"
  else "object"

/-- The per-column statistics record `read_csv` computes for a numeric
column. -/
structure NumericSummary where
  mean : PyVal
  median : PyVal
  min : PyVal
  max : PyVal
  std : PyVal
  null_count : ℕ
deriving DecidableEq

/-- The statistics of one numeric column: each aggregate is computed over
the non-null values (pandas `skipna`), the null count over all cells. -/
def mkNumericSummary (vals : List PyVal) : NumericSummary :=
  let xs := ratVals (nonNA vals)
  { mean := meanQ xs
    median := medianQ xs
    min := minQ xs
    max := maxQ xs
    std := stdQ xs
    null_count := (vals.filter PyVal.isNA).length }

/-- `read_csv`'s numeric statistics: one summary per column whose dtype is
`int64` or `float64` (`df.select_dtypes(include=["int64", "float64"])`), in
table column order. -/
def numeric_stats (t : Table) : List (String × NumericSummary) :=
  (t.cols.filter fun c =>
      dtypeOf (t.col c) == "int64" || dtypeOf (t.col c) == "float64").map
    fun c => (c, mkNumericSummary (t.col c))

/-- The per-column schema record of `read_csv`. -/
structure ColumnInfo where
  type : String
  null_count : ℕ
  unique_values : ℕ
deriving DecidableEq

/-- `read_csv`'s schema block: dtype, null count and distinct non-null
count (`nunique` excludes NaN) for every column. -/
def column_info (t : Table) : List (String × ColumnInfo) :=
  t.cols.map fun c =>
    let vals := t.col c
    (c, { type := dtypeOf vals
          null_count := (vals.filter PyVal.isNA).length
          unique_values := (nonNA vals).dedup.length })

/-- Deterministic per-value byte cost standing in for pandas
`memory_usage(deep=True)`: 8 bytes per numeric slot, an object header plus
the content length for strings.  (The exact pandas figures are
implementation-defined; the spec fixes only determinism and monotonicity in
string length.) -/
def byteCost : PyVal → ℕ
  | .str s => 49 + s.length
  | _ => 8

/-- Bytes of one column under `byteCost`. -/
def columnBytes (vals : List PyVal) : ℕ := (vals.map byteCost).sum

/-- The per-column memory accounting of `read_csv`; pandas reports the
row index first under the name `Index`. -/
def memory_usage (t : Table) : List (String × ℕ) :=
  ("Index", 132) :: t.cols.map fun c => (c, columnBytes (t.col c))

/-- File metadata the operations read via `Path.stat()`;
`last_modified` is the ISO-8601 rendering of the modification time. -/
structure FileStat where
  size_bytes : ℕ
  last_modified : String
deriving DecidableEq

instance {α β : Type} [DecidableEq α] [DecidableEq β] : DecidableEq (Except α β) := fun a b =>
  match a, b with
  | .error x, .error y =>
    if h : x = y then .isTrue (h ▸ rfl) else .isFalse fun hc => h (by cases hc; rfl)
  | .ok x, .ok y =>
    if h : x = y then .isTrue (h ▸ rfl) else .isFalse fun hc => h (by cases hc; rfl)
  | .error _, .ok _ => .isFalse fun hc => by cases hc
  | .ok _, .error _ => .isFalse fun hc => by cases hc

/-- One file-system entry as the operations observe it: missing path, a
non-file (directory), or a regular file.  A file carries its stat data and
the outcome of `pd.read_csv` on its bytes (after the `utf-8-sig` retry):
a table, or the type name of the parse/decode exception. -/
inductive FSEntry where
  | absent : FSEntry
  | dir : FSEntry
  | file (stat : FileStat) (parsed : Except String Table) : FSEntry
deriving DecidableEq

/-- The file-system state an invocation runs against. -/
def FS := String → FSEntry

/-- The structured errors the two operations can report, one constructor
per error site in the source. -/
inductive OpError where
  | notFound (path : String)
  | notAFile (path : String)
  | noGroupCols
  | columnsNotFound (cols : List String) (path : String)
  | columnNotFound (col : String) (path : String)
  | invalidFunction (fn : String)
  | processing (path : String) (excType : String)
deriving DecidableEq

/-- The recognized aggregation functions, in source order. -/
def valid_agg_functions : List String :=
  ["sum", "mean", "median", "min", "max", "std", "count"]

/-- Python's `repr` of a list of strings, as an f-string interpolates it. -/
def renderStrList (cols : List String) : String :=
  "[" ++ String.intercalate ", " (cols.map fun c => "'" ++ c ++ "'") ++ "]"

/-- The human-readable `error` message of each envelope, exactly as the
source formats it (for `processing`, the interpolated `str(e)` text is
abstracted by the exception's type name). -/
def OpError.render : OpError → String
  | .notFound p => "File '" ++ p ++ "' does not exist"
  | .notAFile p => "File '" ++ p ++ "' is not a file"
  | .noGroupCols => "No valid group by columns provided"
  | .columnsNotFound cols p => "Columns " ++ renderStrList cols ++ " not found in file '" ++ p ++ "'"
  | .columnNotFound c p => "Column '" ++ c ++ "' not found in file '" ++ p ++ "'"
  | .invalidFunction fn =>
    "Invalid aggregation function '" ++ fn ++ "'. Valid functions are: " ++
      String.intercalate ", " valid_agg_functions
  | .processing p ety => "Error processing file '" ++ p ++ "': " ++ ety

/-- The `exception_type` field: present exactly on the envelopes built by
the `except` handlers, absent on the validation errors. -/
def OpError.exception_type : OpError → Option String
  | .processing _ ety => some ety
  | _ => none

/-- The uniform response envelope: a typed success payload, or a
structured error (rendered with `success: false` and the message of
`OpError.render`).  Every operation returns exactly one envelope. -/
inductive Envelope (α : Type) where
  | success (payload : α) : Envelope α
  | failure (err : OpError) : Envelope α
deriving DecidableEq

/-- The `success` flag of the serialized envelope. -/
def Envelope.isSuccess {α : Type} : Envelope α → Bool
  | .success _ => true
  | .failure _ => false

/-- Map a function over the payload of a successful envelope. -/
def Envelope.map {α β : Type} (f : α → β) : Envelope α → Envelope β
  | .success p => .success (f p)
  | .failure e => .failure e

/-- Abstract constant standing for `pd.__version__` in the metadata. -/
def pandas_version : String := "2.2.3"

/-- The success payload of `read_csv`, field for field the JSON response
(nesting flattened; `first_5_rows`/`last_5_rows` are `df.head()` and
`df.tail()`). -/
structure ReadPayload where
  path : String
  size_bytes : ℕ
  last_modified : String
  column_count : ℕ
  row_count : ℕ
  columns : List String
  first_5_rows : List (List PyVal)
  last_5_rows : List (List PyVal)
  numeric_columns : List (String × NumericSummary)
  memory_total : ℕ
  memory_per_column : List (String × ℕ)
  schema_columns : List (String × ColumnInfo)
  timestamp : String
  pandas_version : String
deriving DecidableEq

/-- Everything `read_csv` computes up to the envelope, with the
wall-clock timestamp left blank (the caller stamps it). -/
def read_core (fs : FS) (file_path : String) : Except OpError ReadPayload :=
  match fs file_path with
  | .absent => .error (.notFound file_path)
  | .dir => .error (.notAFile file_path)
  | .file st parsed =>
    match parsed with
    | .error ety => .error (.processing file_path ety)
    | .ok df =>
      .ok
        { path := file_path
          size_bytes := st.size_bytes
          last_modified := st.last_modified
          column_count := df.cols.length
          row_count := df.rows.length
          columns := df.cols
          first_5_rows := df.rows.take 5
          last_5_rows := df.rows.drop (df.rows.length - 5)
          numeric_columns := numeric_stats df
          memory_total := ((memory_usage df).map Prod.snd).sum
          memory_per_column := memory_usage df
          schema_columns := column_info df
          timestamp := ""
          pandas_version := pandas_version }

/-- The `read_csv` tool: one envelope per invocation, the success payload
stamped with the wall-clock time `now` of the call
(`pd.Timestamp.now().isoformat()`). -/
def read_csv (fs : FS) (file_path : String) (now : String) : Envelope ReadPayload :=
  match read_core fs file_path with
  | .ok p => .success { p with timestamp := now }
  | .error e => .failure e

/-- One record of `grouped_data`: the group-key values, the reduced value
of the target column, and the `group_size` row count. -/
structure GroupRow where
  key : List PyVal
  value : PyVal
  group_size : ℕ
deriving DecidableEq

/-- The success payload of `aggregate_csv`, field for field the JSON
response (nesting flattened; `overall` is the `overall_<fn>` entry of
`overall_statistics`). -/
structure AggPayload where
  path : String
  size_bytes : ℕ
  last_modified : String
  total_rows : ℕ
  total_columns : ℕ
  group_by : List String
  agg_function : String
  agg_column : String
  grouped_data : List GroupRow
  total_records : ℕ
  groups_count : ℕ
  overall : PyVal
  timestamp : String
  pandas_version : String
  column_types : List (String × String)
deriving DecidableEq

/-- The distinct group keys `df.groupby(gcols, sort=True)` realizes: keys
of the rows that survive `dropna`, deduplicated, in ascending
(column-by-column lexicographic) order. -/
def groupKeys (t : Table) (gcols : List String) : List (List PyVal) :=
  List.insertionSort KeyLe ((t.rows.filter (keyOkB t gcols)).map (rowKey t gcols)).dedup

/-- The rows of `t` belonging to group key `k`. -/
def groupRows (t : Table) (gcols : List String) (k : List PyVal) : List (List PyVal) :=
  t.rows.filter fun r => decide (rowKey t gcols r = k)

/-- The merged `grouped_data` rows for the given key list: for each key
the reduction of the target column over the group's rows
(`df.groupby(...)[agg_column].agg(fn)`) next to the group's row count
(`df.groupby(...).size()`, joined on the keys).  A reduction failure
aborts the whole aggregation, as the raised exception does. -/
def buildGroups (t : Table) (gcols : List String) (ac fn : String) :
    List (List PyVal) → Except String (List GroupRow)
  | [] => .ok []
  | k :: ks => do
    let v ← reduce fn ((groupRows t gcols k).map fun r => cellAt t r ac)
    let rest ← buildGroups t gcols ac fn ks
    .ok (⟨k, v, (groupRows t gcols k).length⟩ :: rest)

/-- Everything `aggregate_csv` computes up to the envelope, with the
wall-clock timestamp left blank: the file checks, the four validations in
source order, the grouped aggregation, and the overall statistics with the
`float(...)` coercion of the overall reduction. -/
def aggregate_core (fs : FS) (file_path group_by agg_column agg_function : String) :
    Except OpError AggPayload :=
  match fs file_path with
  | .absent => .error (.notFound file_path)
  | .dir => .error (.notAFile file_path)
  | .file st parsed =>
    match parsed with
    | .error ety => .error (.processing file_path ety)
    | .ok df =>
      if parseGroupCols group_by = [] then .error .noGroupCols
      else if (parseGroupCols group_by).filter (fun c => !df.cols.contains c) ≠ [] then
        .error (.columnsNotFound
          ((parseGroupCols group_by).filter fun c => !df.cols.contains c) file_path)
      else if agg_column ∉ df.cols then .error (.columnNotFound agg_column file_path)
      else if pyLower agg_function ∉ valid_agg_functions then
        .error (.invalidFunction (pyLower agg_function))
      else
        match buildGroups df (parseGroupCols group_by) agg_column (pyLower agg_function)
            (groupKeys df (parseGroupCols group_by)) with
        | .error ety => .error (.processing file_path ety)
        | .ok groups =>
          match (reduce (pyLower agg_function) (df.col agg_column)).bind pyFloat with
          | .error ety => .error (.processing file_path ety)
          | .ok overall =>
            .ok
              { path := file_path
                size_bytes := st.size_bytes
                last_modified := st.last_modified
                total_rows := df.rows.length
                total_columns := df.cols.length
                group_by := parseGroupCols group_by
                agg_function := pyLower agg_function
                agg_column := agg_column
                grouped_data := groups
                total_records := df.rows.length
                groups_count := groups.length
                overall := overall
                timestamp := ""
                pandas_version := pandas_version
                column_types := (agg_column, dtypeOf (df.col agg_column)) ::
                  (parseGroupCols group_by).map fun c => (c, dtypeOf (df.col c)) }

/-- The `aggregate_csv` tool: one envelope per invocation, the success
payload stamped with the wall-clock time `now` of the call. -/
def aggregate_csv (fs : FS) (file_path group_by agg_column agg_function now : String) :
    Envelope AggPayload :=
  match aggregate_core fs file_path group_by agg_column agg_function with
  | .ok p => .success { p with timestamp := now }
  | .error e => .failure e

/-- The `grouped_data` list of a successful aggregation envelope. -/
def Envelope.groupedData : Envelope AggPayload → Option (List GroupRow)
  | .success p => some p.grouped_data
  | .failure _ => none

/-- The `total_records` field of a successful aggregation envelope. -/
def Envelope.totalRecords : Envelope AggPayload → Option ℕ
  | .success p => some p.total_records
  | .failure _ => none

/-- The `groups_count` field of a successful aggregation envelope. -/
def Envelope.groupsCount : Envelope AggPayload → Option ℕ
  | .success p => some p.groups_count
  | .failure _ => none

/-- The overall reduced value (`overall_<fn>`) of a successful aggregation
envelope. -/
def Envelope.overallValue : Envelope AggPayload → Option PyVal
  | .success p => some p.overall
  | .failure _ => none

/-- The numeric-column statistics of a successful `read_csv` envelope. -/
def Envelope.numericColumns : Envelope ReadPayload → Option (List (String × NumericSummary))
  | .success p => some p.numeric_columns
  | .failure _ => none

/-- The sum of the per-group `group_size` fields of a successful
aggregation envelope. -/
def Envelope.groupSizeSum (e : Envelope AggPayload) : Option ℕ :=
  (e.groupedData).map fun gs => (gs.map GroupRow.group_size).sum

/-- The `metadata.timestamp` of a successful `read_csv` envelope. -/
def Envelope.readTimestamp : Envelope ReadPayload → Option String
  | .success p => some p.timestamp
  | .failure _ => none

/-- The `metadata.timestamp` of a successful `aggregate_csv` envelope. -/
def Envelope.aggTimestamp : Envelope AggPayload → Option String
  | .success p => some p.timestamp
  | .failure _ => none

/-- Is the value one a Python `float(...)` call can return (a number or
NaN — never a string)? -/
def isFloatLike : PyVal → Bool
  | .str _ => false
  | _ => true

/-- The example table `region,sales` with rows (A,10), (B,20), (A,30). -/
def salesTable : Table :=
  ⟨["region", "sales"], [[.str "A", .rat 10], [.str "B", .rat 20], [.str "A", .rat 30]]⟩

/-- A file system serving `salesTable` at `sales.csv`. -/
def fsSales : FS := fun p =>
  if p = "sales.csv" then .file ⟨34, "2024-01-01T00:00:00"⟩ (.ok salesTable) else .absent

/-- A table whose group-by column `g` has a missing value in its first
row. -/
def nullKeyTable : Table :=
  ⟨["g", "x"], [[.nan, .rat 1], [.str "A", .rat 2]]⟩

/-- A file system serving `nullKeyTable` at `t.csv`. -/
def fsNullKey : FS := fun p =>
  if p = "t.csv" then .file ⟨14, "2024-01-01T00:00:00"⟩ (.ok nullKeyTable) else .absent

/-- A table whose target column `x` has a missing value. -/
def nullTargetTable : Table :=
  ⟨["g", "x"], [[.str "A", .nan], [.str "A", .rat 5]]⟩

/-- A file system serving `nullTargetTable` at `t.csv`. -/
def fsNullTarget : FS := fun p =>
  if p = "t.csv" then .file ⟨13, "2024-01-01T00:00:00"⟩ (.ok nullTargetTable) else .absent

/-- A table whose target column `x` holds non-numeric text. -/
def textTable : Table :=
  ⟨["g", "x"], [[.str "A", .str "apple"], [.str "B", .str "banana"]]⟩

/-- A file system serving `textTable` at `t.csv`. -/
def fsText : FS := fun p =>
  if p = "t.csv" then .file ⟨22, "2024-01-01T00:00:00"⟩ (.ok textTable) else .absent

/-- A one-row table with a single numeric column. -/
def oneRowTable : Table := ⟨["x"], [[.rat 5]]⟩

/-- A file system serving `oneRowTable` at `one.csv`. -/
def fsOneRow : FS := fun p =>
  if p = "one.csv" then .file ⟨8, "2024-01-01T00:00:00"⟩ (.ok oneRowTable) else .absent

/-! ### Supporting lemmas -/

theorem ratAdd_eq (a b : ℚ) : ratAdd a b = a + b := (Rat.add_def' a b).symm

theorem ratSub_eq (a b : ℚ) : ratSub a b = a - b := (Rat.sub_def' a b).symm

theorem ratMul_eq (a b : ℚ) : ratMul a b = a * b := by
  rw [Rat.mul_def, Rat.normalize_eq_mkRat]; rfl

theorem ratInv_eq (a : ℚ) : ratInv a = a⁻¹ := by
  have hinv : a⁻¹ = Rat.divInt (a.den : Int) a.num := Rat.inv_def a
  rw [ratInv, hinv]
  rcases h : a.num with n | n
  · have h0 : ¬ (Int.ofNat n < 0) := by simp [Int.ofNat_eq_coe]
    rw [if_neg h0, show Int.ofNat n = ((n : ℕ) : Int) from rfl, Rat.divInt_ofNat]
    simp
  · have h0 : Int.negSucc n < 0 := Int.negSucc_lt_zero n
    rw [if_pos h0]
    simp only [Int.natAbs_negSucc]
    rw [show Int.negSucc n = -(((n + 1 : ℕ) : Int)) by rw [Int.negSucc_eq]; push_cast; ring,
      Rat.divInt_neg', Rat.divInt_ofNat]

theorem ratDiv_eq (a b : ℚ) : ratDiv a b = a / b := by
  rw [ratDiv, ratMul_eq, ratInv_eq, div_eq_mul_inv]

theorem sumQ_eq (xs : List ℚ) : sumQ xs = xs.sum := by
  induction xs with
  | nil => rfl
  | cons x xs ih => rw [sumQ, ratAdd_eq, ih, List.sum_cons]

theorem charListLe_total (a b : List Char) : charListLe a b = true ∨ charListLe b a = true := by
  induction a generalizing b with
  | nil => left; rfl
  | cons c cs ih =>
    cases b with
    | nil => right; rfl
    | cons d ds =>
      by_cases h : c = d
      · subst h
        simp only [charListLe, if_pos rfl]
        exact ih ds
      · rcases lt_or_gt_of_ne h with hlt | hgt
        · left; simp [charListLe, h, hlt]
        · right
          simp [charListLe, Ne.symm h, hgt]

theorem charListLe_antisymm {a b : List Char} (hab : charListLe a b = true)
    (hba : charListLe b a = true) : a = b := by
  induction a generalizing b with
  | nil =>
    cases b with
    | nil => rfl
    | cons d ds => simp [charListLe] at hba
  | cons c cs ih =>
    cases b with
    | nil => simp [charListLe] at hab
    | cons d ds =>
      by_cases h : c = d
      · subst h
        simp only [charListLe, if_pos rfl] at hab hba
        rw [ih hab hba]
      · simp only [charListLe, if_neg h, if_neg (Ne.symm h), decide_eq_true_eq] at hab hba
        exact absurd (lt_trans hab hba) (lt_irrefl c)

theorem charListLe_trans {a b c : List Char} (hab : charListLe a b = true)
    (hbc : charListLe b c = true) : charListLe a c = true := by
  induction a generalizing b c with
  | nil => rfl
  | cons x xs ih =>
    cases b with
    | nil => simp [charListLe] at hab
    | cons y ys =>
      cases c with
      | nil => simp [charListLe] at hbc
      | cons z zs =>
        by_cases hxy : x = y <;> by_cases hyz : y = z
        · subst hxy; subst hyz
          simp only [charListLe, if_pos rfl] at hab hbc ⊢
          exact ih hab hbc
        · subst hxy
          simp only [charListLe, if_neg hyz] at hbc ⊢
          exact hbc
        · subst hyz
          simp only [charListLe, if_neg hxy] at hab ⊢
          exact hab
        · simp only [charListLe, if_neg hxy, if_neg hyz, decide_eq_true_eq] at hab hbc
          have hxz : x < z := lt_trans hab hbc
          simp [charListLe, ne_of_lt hxz, hxz]

theorem PyVal.leB_total (a b : PyVal) : a.leB b = true ∨ b.leB a = true := by
  cases a <;> cases b <;> simp [PyVal.leB, PyVal.rank, pyStrLe] <;>
    first
      | exact le_total _ _
      | exact charListLe_total _ _

theorem PyVal.leB_antisymm {a b : PyVal} (hab : a.leB b = true) (hba : b.leB a = true) :
    a = b := by
  cases a <;> cases b <;>
    simp_all [PyVal.leB, PyVal.rank, pyStrLe] <;>
    first
      | exact le_antisymm hab hba
      | exact String.ext (charListLe_antisymm hab hba)

theorem PyVal.leB_trans {a b c : PyVal} (hab : a.leB b = true) (hbc : b.leB c = true) :
    a.leB c = true := by
  cases a <;> cases b <;> cases c <;>
    simp_all [PyVal.leB, PyVal.rank, pyStrLe] <;>
    first
      | exact le_trans hab hbc
      | exact charListLe_trans hab hbc

theorem keyLeB_total (a b : List PyVal) : keyLeB a b = true ∨ keyLeB b a = true := by
  induction a generalizing b with
  | nil => left; rfl
  | cons x xs ih =>
    cases b with
    | nil => right; rfl
    | cons y ys =>
      by_cases h : x = y
      · subst h
        simp only [keyLeB, if_pos rfl]
        exact ih ys
      · simp only [keyLeB, if_neg h, if_neg (Ne.symm h)]
        exact PyVal.leB_total x y

theorem keyLeB_trans {a b c : List PyVal} (hab : keyLeB a b = true)
    (hbc : keyLeB b c = true) : keyLeB a c = true := by
  induction a generalizing b c with
  | nil => rfl
  | cons x xs ih =>
    cases b with
    | nil => simp [keyLeB] at hab
    | cons y ys =>
      cases c with
      | nil => simp [keyLeB] at hbc
      | cons z zs =>
        by_cases hxy : x = y <;> by_cases hyz : y = z
        · subst hxy; subst hyz
          simp only [keyLeB, if_pos rfl] at hab hbc ⊢
          exact ih hab hbc
        · subst hxy
          simp only [keyLeB, if_neg hyz] at hbc ⊢
          exact hbc
        · subst hyz
          simp only [keyLeB, if_neg hxy] at hab ⊢
          exact hab
        · simp only [keyLeB, if_neg hxy, if_neg hyz] at hab hbc
          have hxz : x ≠ z := by
            intro he
            subst he
            exact hxy (PyVal.leB_antisymm hab hbc)
          simp only [keyLeB, if_neg hxz]
          exact PyVal.leB_trans hab hbc

instance : IsTotal (List PyVal) KeyLe := ⟨keyLeB_total⟩

instance : IsTrans (List PyVal) KeyLe := ⟨fun _ _ _ => keyLeB_trans⟩


theorem buildGroups_spec (t : Table) (gcols : List String) (ac fn : String) :
    ∀ ks gs, buildGroups t gcols ac fn ks = .ok gs →
      gs.map GroupRow.key = ks ∧
      ∀ g ∈ gs, g.group_size = (groupRows t gcols g.key).length ∧
        reduce fn ((groupRows t gcols g.key).map fun r => cellAt t r ac) = .ok g.value := by
  intro ks
  induction ks with
  | nil =>
    intro gs h
    simp only [buildGroups] at h
    cases h
    exact ⟨rfl, by intro g hg; cases hg⟩
  | cons k ks ih =>
    intro gs h
    simp only [buildGroups, bind, Except.bind] at h
    cases hv : reduce fn ((groupRows t gcols k).map fun r => cellAt t r ac) with
    | error e => rw [hv] at h; cases h
    | ok v =>
      rw [hv] at h
      cases hrest : buildGroups t gcols ac fn ks with
      | error e => rw [hrest] at h; cases h
      | ok rest =>
        rw [hrest] at h
        cases h
        obtain ⟨hkeys, hmem⟩ := ih rest hrest
        refine ⟨by simp [hkeys], ?_⟩
        intro g hg
        rcases List.mem_cons.1 hg with rfl | hg'
        · exact ⟨rfl, hv⟩
        · exact hmem g hg'

theorem sum_dedup_countP (L : List (List PyVal)) :
    (L.dedup.map fun k => L.countP fun x => decide (x = k)).sum = L.length :=
  List.sum_map_count_dedup_eq_length L

theorem groupRows_length_eq_count (t : Table) (g : List String) (k : List PyVal)
    (hk : k.all (fun v => !v.isNA) = true) :
    (groupRows t g k).length =
      ((t.rows.filter (keyOkB t g)).map (rowKey t g)).countP fun x => decide (x = k) := by
  rw [List.countP_map, List.countP_eq_length_filter, List.filter_filter]
  unfold groupRows
  congr 1
  apply List.filter_congr
  intro r _
  by_cases hrk : rowKey t g r = k
  · have hok : keyOkB t g r = true := by rw [keyOkB, hrk]; exact hk
    simp [hrk, hok, Function.comp]
  · simp [Function.comp, hrk]

theorem mem_groupKeys_all_nonNA (t : Table) (g : List String) (k : List PyVal)
    (hk : k ∈ groupKeys t g) : k.all (fun v => !v.isNA) = true := by
  rw [groupKeys, List.mem_insertionSort, List.mem_dedup] at hk
  rcases List.mem_map.1 hk with ⟨r, hr, rfl⟩
  exact (List.mem_filter.1 hr).2

theorem sum_group_sizes (t : Table) (g : List String) :
    ((groupKeys t g).map fun k => (groupRows t g k).length).sum =
      (t.rows.filter (keyOkB t g)).length := by
  have h1 : ((groupKeys t g).map fun k => (groupRows t g k).length) =
      (groupKeys t g).map fun k =>
        ((t.rows.filter (keyOkB t g)).map (rowKey t g)).countP fun x => decide (x = k) := by
    apply List.map_congr_left
    intro k hk
    exact groupRows_length_eq_count t g k (mem_groupKeys_all_nonNA t g k hk)
  rw [h1]
  have hperm : List.Perm (groupKeys t g) ((t.rows.filter (keyOkB t g)).map (rowKey t g)).dedup :=
    List.perm_insertionSort _ _
  rw [(hperm.map _).sum_eq, sum_dedup_countP, List.length_map]

theorem groupKeys_sorted (t : Table) (g : List String) :
    List.Sorted KeyLe (groupKeys t g) :=
  List.sorted_insertionSort KeyLe _

theorem groupKeys_nodup (t : Table) (g : List String) : (groupKeys t g).Nodup :=
  (List.perm_insertionSort _ _).nodup_iff.mpr (List.nodup_dedup _)

theorem append_ne_empty (s t : String) (hs : s ≠ "") : s ++ t ≠ "" := by
  intro h
  apply hs
  have hl := congrArg String.length h
  rw [String.length_append] at hl
  have hs0 : s.data.length = 0 := by
    have h0 : String.length "" = 0 := rfl
    have : s.length = 0 := by omega
    exact this
  have hd : s.data = [] := List.length_eq_zero.mp hs0
  exact String.ext hd

theorem aggregate_csv_success {fs : FS} {fp gb ac fn now : String} {p : AggPayload}
    (h : aggregate_csv fs fp gb ac fn now = .success p) :
    ∃ q, aggregate_core fs fp gb ac fn = .ok q ∧ p = { q with timestamp := now } := by
  unfold aggregate_csv at h
  cases hc : aggregate_core fs fp gb ac fn with
  | ok q =>
    rw [hc] at h
    exact ⟨q, rfl, by cases h; rfl⟩
  | error e => rw [hc] at h; cases h

theorem read_csv_success {fs : FS} {fp now : String} {p : ReadPayload}
    (h : read_csv fs fp now = .success p) :
    ∃ q, read_core fs fp = .ok q ∧ p = { q with timestamp := now } := by
  unfold read_csv at h
  cases hc : read_core fs fp with
  | ok q =>
    rw [hc] at h
    exact ⟨q, rfl, by cases h; rfl⟩
  | error e => rw [hc] at h; cases h

theorem aggregate_core_ok {fs : FS} {fp gb ac fn : String} {p : AggPayload}
    (h : aggregate_core fs fp gb ac fn = .ok p) :
    ∃ st df groups overall,
      fs fp = .file st (.ok df) ∧
      buildGroups df (parseGroupCols gb) ac (pyLower fn)
        (groupKeys df (parseGroupCols gb)) = .ok groups ∧
      (reduce (pyLower fn) (df.col ac)).bind pyFloat = .ok overall ∧
      p = { path := fp
            size_bytes := st.size_bytes
            last_modified := st.last_modified
            total_rows := df.rows.length
            total_columns := df.cols.length
            group_by := parseGroupCols gb
            agg_function := pyLower fn
            agg_column := ac
            grouped_data := groups
            total_records := df.rows.length
            groups_count := groups.length
            overall := overall
            timestamp := ""
            pandas_version := pandas_version
            column_types := (ac, dtypeOf (df.col ac)) ::
              (parseGroupCols gb).map fun c => (c, dtypeOf (df.col c)) } := by
  unfold aggregate_core at h
  cases hfs : fs fp with
  | absent => rw [hfs] at h; cases h
  | dir => rw [hfs] at h; cases h
  | file st parsed =>
    rw [hfs] at h
    cases parsed with
    | error ety => cases h
    | ok df =>
      dsimp only at h
      split at h
      · cases h
      · split at h
        · cases h
        · split at h
          · cases h
          · split at h
            · cases h
            · cases hbg : buildGroups df (parseGroupCols gb) ac (pyLower fn)
                  (groupKeys df (parseGroupCols gb)) with
              | error e => rw [hbg] at h; cases h
              | ok groups =>
                rw [hbg] at h
                cases hov : (reduce (pyLower fn) (df.col ac)).bind pyFloat with
                | error e => rw [hov] at h; cases h
                | ok overall =>
                  rw [hov] at h
                  simp only [Except.ok.injEq] at h
                  exact ⟨st, df, groups, overall, rfl, hbg, hov, h.symm⟩

theorem aggregate_csv_failure {fs : FS} {fp gb ac fn now : String} {e : OpError}
    (h : aggregate_core fs fp gb ac fn = .error e) :
    aggregate_csv fs fp gb ac fn now = .failure e := by
  unfold aggregate_csv
  rw [h]

theorem aggregate_core_validation (fs : FS) (fp gb ac fn : String) (st : FileStat) (df : Table)
    (hfs : fs fp = .file st (.ok df)) :
    (parseGroupCols gb = [] → aggregate_core fs fp gb ac fn = .error .noGroupCols) ∧
    (parseGroupCols gb ≠ [] →
      (parseGroupCols gb).filter (fun c => !df.cols.contains c) ≠ [] →
      aggregate_core fs fp gb ac fn =
        .error (.columnsNotFound ((parseGroupCols gb).filter fun c => !df.cols.contains c) fp)) ∧
    (parseGroupCols gb ≠ [] →
      (parseGroupCols gb).filter (fun c => !df.cols.contains c) = [] →
      ac ∉ df.cols →
      aggregate_core fs fp gb ac fn = .error (.columnNotFound ac fp)) ∧
    (parseGroupCols gb ≠ [] →
      (parseGroupCols gb).filter (fun c => !df.cols.contains c) = [] →
      ac ∈ df.cols →
      pyLower fn ∉ valid_agg_functions →
      aggregate_core fs fp gb ac fn = .error (.invalidFunction (pyLower fn))) := by
  unfold aggregate_core
  rw [hfs]
  dsimp only
  refine ⟨fun h1 => ?_, fun h1 h2 => ?_, fun h1 h2 h3 => ?_, fun h1 h2 h3 h4 => ?_⟩
  · rw [if_pos h1]
  · rw [if_neg h1, if_pos h2]
  · rw [if_neg h1, if_neg (not_not_intro h2), if_pos h3]
  · rw [if_neg h1, if_neg (not_not_intro h2), if_neg (not_not_intro h3), if_pos h4]

theorem reduce_count (vals : List PyVal) :
    reduce "count" vals = .ok (.rat ((nonNA vals).length : ℚ)) := rfl

theorem pyFloat_ok_isFloatLike {v w : PyVal} (h : pyFloat v = .ok w) :
    isFloatLike w = true := by
  cases v with
  | str s =>
    rw [pyFloat] at h
    cases hp : parseFloat s with
    | some q => rw [hp] at h; cases h; rfl
    | none => rw [hp] at h; cases h
  | nan => cases h; rfl
  | rat q => cases h; rfl
  | sqrtRat q => cases h; rfl

theorem read_csv_numericColumns {fs : FS} {fp now : String} {st : FileStat} {df : Table}
    (hfs : fs fp = .file st (.ok df)) :
    (read_csv fs fp now).numericColumns = some (numeric_stats df) := by
  unfold read_csv read_core
  rw [hfs]
  rfl

theorem OpError.render_ne (e : OpError) : e.render ≠ "" := by
  cases e <;> simp only [OpError.render] <;>
    first
      | decide
      | exact append_ne_empty _ _ (by decide)
      | exact append_ne_empty _ _ (append_ne_empty _ _ (by decide))
      | exact append_ne_empty _ _ (append_ne_empty _ _ (append_ne_empty _ _ (by decide)))
      | exact append_ne_empty _ _
          (append_ne_empty _ _ (append_ne_empty _ _ (append_ne_empty _ _ (by decide))))

/-! ### The claims -/

/-- C1 (amended): for every `aggregate_csv` call that returns a success
envelope, the sum of the `group_size` values over the emitted groups
equals the number of table rows whose group-by key values are all
non-null (`df.groupby` drops rows with a missing key value);
`total_records` is the full row count, and the two agree whenever the
group-by columns contain no missing values. -/
theorem group_sizes_sum_to_nonnull_rows
    {fs : FS} {fp gb ac fn now : String} {st : FileStat} {df : Table}
    (hfs : fs fp = .file st (.ok df))
    (hs : (aggregate_csv fs fp gb ac fn now).isSuccess = true) :
    (aggregate_csv fs fp gb ac fn now).groupSizeSum =
        some (df.rows.filter (keyOkB df (parseGroupCols gb))).length ∧
      (aggregate_csv fs fp gb ac fn now).totalRecords = some df.rows.length ∧
      ((∀ r ∈ df.rows, keyOkB df (parseGroupCols gb) r = true) →
        (aggregate_csv fs fp gb ac fn now).groupSizeSum =
          (aggregate_csv fs fp gb ac fn now).totalRecords) := by
  cases he : aggregate_csv fs fp gb ac fn now with
  | failure e => rw [he] at hs; cases hs
  | success p =>
    obtain ⟨q, hq, rfl⟩ := aggregate_csv_success he
    obtain ⟨st', df', groups, overall, hfs', hbg, hov, rfl⟩ := aggregate_core_ok hq
    rw [hfs] at hfs'
    cases hfs'
    obtain ⟨hkeys, hmem⟩ := buildGroups_spec _ _ _ _ _ _ hbg
    have hsum : (groups.map GroupRow.group_size).sum =
        (df.rows.filter (keyOkB df (parseGroupCols gb))).length := by
      have hmapped : groups.map GroupRow.group_size =
          (groupKeys df (parseGroupCols gb)).map
            fun k => (groupRows df (parseGroupCols gb) k).length := by
        rw [← hkeys, List.map_map]
        apply List.map_congr_left
        intro g hg
        exact (hmem g hg).1
      rw [hmapped, sum_group_sizes]
    refine ⟨?_, ?_, ?_⟩
    · simp only [Envelope.groupSizeSum, Envelope.groupedData, Option.map_some']
      rw [hsum]
    · rfl
    · intro hall
      simp only [Envelope.groupSizeSum, Envelope.groupedData, Envelope.totalRecords,
        Option.map_some']
      rw [hsum, List.filter_eq_self.mpr hall]

/-- Witness for C1 at the `region,sales` example table. -/
theorem group_sizes_sum_to_nonnull_rows_witness :
    (aggregate_csv fsSales "sales.csv" "region" "sales" "sum" "T").groupSizeSum =
      some (salesTable.rows.filter (keyOkB salesTable (parseGroupCols "region"))).length :=
  (group_sizes_sum_to_nonnull_rows rfl (by decide)).1

/-- C1 counterexample: with a null in the group-by column `g`, the call
succeeds, the group sizes sum to 1, but `total_records` is 2 — the claimed
equality fails. -/
theorem group_sizes_sum_cex :
    (aggregate_csv fsNullKey "t.csv" "g" "x" "sum" "T").groupSizeSum = some 1 ∧
      (aggregate_csv fsNullKey "t.csv" "g" "x" "sum" "T").totalRecords = some 2 ∧
      (aggregate_csv fsNullKey "t.csv" "g" "x" "sum" "T").groupSizeSum ≠
        (aggregate_csv fsNullKey "t.csv" "g" "x" "sum" "T").totalRecords := by
  exact ⟨by decide, by decide, by decide⟩

/-- C2 (amended): a `count` aggregation counts the non-null values of the
target column — overall, `overall_count` is the number of non-null entries
of the column (so it equals the row count only when the column has no
nulls), and each group's value is the number of non-null target entries
among the group's rows. -/
theorem count_counts_nonnull_target
    {fs : FS} {fp gb ac fn now : String} {st : FileStat} {df : Table}
    (hfs : fs fp = .file st (.ok df))
    (hfn : pyLower fn = "count")
    (hs : (aggregate_csv fs fp gb ac fn now).isSuccess = true) :
    (aggregate_csv fs fp gb ac fn now).overallValue =
        some (.rat ((nonNA (df.col ac)).length : ℚ)) ∧
      ∀ gs, (aggregate_csv fs fp gb ac fn now).groupedData = some gs →
        ∀ g ∈ gs, g.value =
          .rat ((nonNA ((groupRows df (parseGroupCols gb) g.key).map
            fun r => cellAt df r ac)).length : ℚ) := by
  cases he : aggregate_csv fs fp gb ac fn now with
  | failure e => rw [he] at hs; cases hs
  | success p =>
    obtain ⟨q, hq, rfl⟩ := aggregate_csv_success he
    obtain ⟨st', df', groups, overall, hfs', hbg, hov, rfl⟩ := aggregate_core_ok hq
    rw [hfs] at hfs'
    cases hfs'
    rw [hfn] at hov hbg
    obtain ⟨hkeys, hmem⟩ := buildGroups_spec _ _ _ _ _ _ hbg
    have hoverall : overall = .rat ((nonNA (df.col ac)).length : ℚ) := by
      rw [reduce_count] at hov
      exact (Except.ok.inj hov).symm
    constructor
    · show some overall = _
      rw [hoverall]
    · intro gs hgs
      have hgs' : gs = groups := by
        simpa [Envelope.groupedData] using hgs.symm
      rw [hgs']
      intro g hg
      have hgv := (hmem g hg).2
      rw [reduce_count] at hgv
      exact (Except.ok.inj hgv).symm

/-- Witness for C2 at a table whose target column has no nulls. -/
theorem count_counts_nonnull_target_witness :
    (aggregate_csv fsSales "sales.csv" "region" "sales" "count" "T").overallValue =
      some (.rat ((nonNA (salesTable.col "sales")).length : ℚ)) :=
  (count_counts_nonnull_target rfl (by decide) (by decide)).1

/-- C2 counterexample: one of the two rows has a null target value, so
`overall_count` is 1 while the table's row count is 2. -/
theorem count_counts_nonnull_target_cex :
    (aggregate_csv fsNullTarget "t.csv" "g" "x" "count" "T").overallValue = some (.rat 1) ∧
      (aggregate_csv fsNullTarget "t.csv" "g" "x" "count" "T").totalRecords = some 2 ∧
      (aggregate_csv fsNullTarget "t.csv" "g" "x" "count" "T").overallValue ≠
        some (.rat 2) := by
  exact ⟨by decide, by decide, by decide⟩

/-- C3: on the table `region,sales` with rows (A,10), (B,20), (A,30),
summing `sales` by `region` succeeds with exactly the groups
[{region: A, sales: 40, size: 2}, {region: B, sales: 20, size: 1}] in that
order, overall sum 60, 3 total records and 2 groups. -/
theorem aggregate_sum_by_region_scenario :
    (aggregate_csv fsSales "sales.csv" "region" "sales" "sum" "T").groupedData =
        some [⟨[.str "A"], .rat 40, 2⟩, ⟨[.str "B"], .rat 20, 1⟩] ∧
      (aggregate_csv fsSales "sales.csv" "region" "sales" "sum" "T").overallValue =
        some (.rat 60) ∧
      (aggregate_csv fsSales "sales.csv" "region" "sales" "sum" "T").totalRecords = some 3 ∧
      (aggregate_csv fsSales "sales.csv" "region" "sales" "sum" "T").groupsCount = some 2 := by
  exact ⟨by decide, by decide, by decide, by decide⟩

/-- C4: every invocation of `read_csv` or `aggregate_csv` yields exactly
one envelope (the operations are total functions of the call), and every
error envelope reports `success: false` together with a nonempty
human-readable message. -/
theorem every_invocation_one_envelope (fs : FS) (fp gb ac fn now : String) :
    ((read_csv fs fp now).isSuccess = true ∨
      ∃ e, read_csv fs fp now = .failure e ∧ (read_csv fs fp now).isSuccess = false ∧
        e.render ≠ "") ∧
    ((aggregate_csv fs fp gb ac fn now).isSuccess = true ∨
      ∃ e, aggregate_csv fs fp gb ac fn now = .failure e ∧
        (aggregate_csv fs fp gb ac fn now).isSuccess = false ∧ e.render ≠ "") := by
  constructor
  · cases h : read_csv fs fp now with
    | success p => left; rfl
    | failure e => right; exact ⟨e, rfl, rfl, OpError.render_ne e⟩
  · cases h : aggregate_csv fs fp gb ac fn now with
    | success p => left; rfl
    | failure e => right; exact ⟨e, rfl, rfl, OpError.render_ne e⟩

/-- C5: on a successfully loaded table the four validations run in source
order — (1) nonempty trimmed group-by list, (2) all group-by columns
exist, (3) the target column exists, (4) the lowercased function is
recognized — and the first failure alone decides the error; in particular
an empty group-by list wins over an invalid function. -/
theorem validation_order_first_failure_wins
    {fs : FS} {fp gb ac fn now : String} {st : FileStat} {df : Table}
    (hfs : fs fp = .file st (.ok df)) :
    (parseGroupCols gb = [] →
      aggregate_csv fs fp gb ac fn now = .failure .noGroupCols) ∧
    (parseGroupCols gb ≠ [] →
      (parseGroupCols gb).filter (fun c => !df.cols.contains c) ≠ [] →
      aggregate_csv fs fp gb ac fn now =
        .failure (.columnsNotFound
          ((parseGroupCols gb).filter fun c => !df.cols.contains c) fp)) ∧
    (parseGroupCols gb ≠ [] →
      (parseGroupCols gb).filter (fun c => !df.cols.contains c) = [] →
      ac ∉ df.cols →
      aggregate_csv fs fp gb ac fn now = .failure (.columnNotFound ac fp)) ∧
    (parseGroupCols gb ≠ [] →
      (parseGroupCols gb).filter (fun c => !df.cols.contains c) = [] →
      ac ∈ df.cols →
      pyLower fn ∉ valid_agg_functions →
      aggregate_csv fs fp gb ac fn now = .failure (.invalidFunction (pyLower fn))) := by
  obtain ⟨h1, h2, h3, h4⟩ := aggregate_core_validation fs fp gb ac fn st df hfs
  exact ⟨fun a => aggregate_csv_failure (h1 a),
    fun a b => aggregate_csv_failure (h2 a b),
    fun a b c => aggregate_csv_failure (h3 a b c),
    fun a b c d => aggregate_csv_failure (h4 a b c d)⟩

/-- Witness for C5: empty group-by string together with an invalid
function reports the empty-group-by error. -/
theorem validation_order_first_failure_wins_witness :
    aggregate_csv fsSales "sales.csv" "" "sales" "bogus" "T" = .failure .noGroupCols :=
  (validation_order_first_failure_wins rfl).1 (by decide)

/-- C6: the emitted groups of every successful aggregation are in
ascending lexicographic order of their key tuples (column by column, in
group-by column order), with no key repeated. -/
theorem groups_emitted_sorted
    {fs : FS} {fp gb ac fn now : String} {gs : List GroupRow}
    (h : (aggregate_csv fs fp gb ac fn now).groupedData = some gs) :
    List.Sorted KeyLe (gs.map GroupRow.key) ∧ (gs.map GroupRow.key).Nodup := by
  cases he : aggregate_csv fs fp gb ac fn now with
  | failure e => rw [he] at h; cases h
  | success p =>
    rw [he] at h
    obtain ⟨q, hq, rfl⟩ := aggregate_csv_success he
    obtain ⟨st', df', groups, overall, hfs', hbg, hov, rfl⟩ := aggregate_core_ok hq
    obtain ⟨hkeys, -⟩ := buildGroups_spec _ _ _ _ _ _ hbg
    have hgs : gs = groups := by
      simpa [Envelope.groupedData] using h.symm
    rw [hgs, hkeys]
    exact ⟨groupKeys_sorted _ _, groupKeys_nodup _ _⟩

/-- Witness for C6 at the `region,sales` example table. -/
theorem groups_emitted_sorted_witness :
    List.Sorted KeyLe
        ([(⟨[.str "A"], .rat 40, 2⟩ : GroupRow), ⟨[.str "B"], .rat 20, 1⟩].map GroupRow.key) ∧
      ([(⟨[.str "A"], .rat 40, 2⟩ : GroupRow), ⟨[.str "B"], .rat 20, 1⟩].map
        GroupRow.key).Nodup :=
  @groups_emitted_sorted fsSales "sales.csv" "region" "sales" "sum" "T"
    [⟨[.str "A"], .rat 40, 2⟩, ⟨[.str "B"], .rat 20, 1⟩] (by decide)

/-- C7: on a table with at most one row, every numeric-column summary the
statistics engine produces has `std = NaN` (the `n − 1` denominator is 0)
instead of an exception — the other fields are still computed, e.g. the
null count — and `read_csv` still returns the full statistics block. -/
theorem single_row_std_undefined
    (t : Table) (hrows : t.rows.length ≤ 1) :
    (∀ pr ∈ numeric_stats t, pr.2.std = PyVal.nan ∧
        pr.2.null_count = ((t.col pr.1).filter PyVal.isNA).length) ∧
      ∀ (fs : FS) (fp now : String) (st : FileStat), fs fp = .file st (.ok t) →
        (read_csv fs fp now).numericColumns = some (numeric_stats t) := by
  constructor
  · intro pr hpr
    rw [numeric_stats] at hpr
    rcases List.mem_map.1 hpr with ⟨c, hc, rfl⟩
    refine ⟨?_, rfl⟩
    have hlen : (ratVals (nonNA (t.col c))).length ≤ 1 := by
      calc (ratVals (nonNA (t.col c))).length
          ≤ (nonNA (t.col c)).length := List.length_filterMap_le _ _
        _ ≤ (t.col c).length := List.length_filter_le _ _
        _ = t.rows.length := List.length_map _ _
        _ ≤ 1 := hrows
    show stdQ (ratVals (nonNA (t.col c))) = PyVal.nan
    rw [stdQ, if_pos hlen]
  · intro fs fp now st hfs
    exact read_csv_numericColumns hfs

/-- Witness for C7 at a one-row numeric table. -/
theorem single_row_std_undefined_witness :
    ("x", mkNumericSummary (oneRowTable.col "x")) ∈ numeric_stats oneRowTable ∧
      (mkNumericSummary (oneRowTable.col "x")).std = PyVal.nan :=
  ⟨by decide, ((single_row_std_undefined oneRowTable (by decide)).1
    ("x", mkNumericSummary (oneRowTable.col "x")) (by decide)).1⟩

/-- C8: when group-by columns are missing from the table, the error lists
every missing name (the filter keeping exactly the absent names), not just
the first. -/
theorem missing_group_columns_all_listed
    {fs : FS} {fp gb ac fn now : String} {st : FileStat} {df : Table}
    (hfs : fs fp = .file st (.ok df))
    (hne : parseGroupCols gb ≠ [])
    (hmiss : (parseGroupCols gb).filter (fun c => !df.cols.contains c) ≠ []) :
    aggregate_csv fs fp gb ac fn now =
      .failure (.columnsNotFound
        ((parseGroupCols gb).filter fun c => !df.cols.contains c) fp) ∧
    ∀ c ∈ parseGroupCols gb, c ∉ df.cols →
      c ∈ (parseGroupCols gb).filter fun c => !df.cols.contains c := by
  constructor
  · exact aggregate_csv_failure
      (((aggregate_core_validation fs fp gb ac fn st df hfs).2.1) hne hmiss)
  · intro c hc hnotin
    rw [List.mem_filter]
    exact ⟨hc, by simp [hnotin]⟩

/-- Witness for C8: both missing group-by names appear in the error. -/
theorem missing_group_columns_all_listed_witness :
    aggregate_csv fsSales "sales.csv" "a, b" "sales" "sum" "T" =
        .failure (.columnsNotFound
          ((parseGroupCols "a, b").filter fun c => !salesTable.cols.contains c)
          "sales.csv") ∧
      "a" ∈ (parseGroupCols "a, b").filter fun c => !salesTable.cols.contains c :=
  ⟨(@missing_group_columns_all_listed fsSales "sales.csv" "a, b" "sales" "sum" "T"
      ⟨34, "2024-01-01T00:00:00"⟩ salesTable rfl (by decide) (by decide)).1,
    (@missing_group_columns_all_listed fsSales "sales.csv" "a, b" "sales" "sum" "T"
      ⟨34, "2024-01-01T00:00:00"⟩ salesTable rfl (by decide) (by decide)).2 "a" (by decide)
      (by decide)⟩

/-- C9: the overall reduction is always passed through `float(...)` — so a
successful response's overall value is numeric (never a string), even for
`count` — and a call whose reduction result cannot be coerced (min over a
textual column) yields a `success: false` envelope carrying the
`ValueError` exception type. -/
theorem overall_value_float_coerced :
    (∀ (fs : FS) (fp gb ac fn now : String) (v : PyVal),
        (aggregate_csv fs fp gb ac fn now).overallValue = some v →
        isFloatLike v = true) ∧
      aggregate_csv fsText "t.csv" "g" "x" "min" "T" =
        .failure (.processing "t.csv" "ValueError") ∧
      (OpError.processing "t.csv" "ValueError").exception_type = some "ValueError" := by
  refine ⟨?_, by decide, rfl⟩
  intro fs fp gb ac fn now v h
  cases he : aggregate_csv fs fp gb ac fn now with
  | failure e => rw [he] at h; cases h
  | success p =>
    rw [he] at h
    cases h
    obtain ⟨q, hq, rfl⟩ := aggregate_csv_success he
    obtain ⟨st', df', groups, overall, hfs', hbg, hov, rfl⟩ := aggregate_core_ok hq
    cases hr : reduce (pyLower fn) (df'.col ac) with
    | error e => rw [hr] at hov; cases hov
    | ok w =>
      rw [hr] at hov
      exact pyFloat_ok_isFloatLike hov

/-- Witness for C9's universal part at the `region,sales` example. -/
theorem overall_value_float_coerced_witness :
    isFloatLike (.rat 60) = true :=
  overall_value_float_coerced.1 fsSales "sales.csv" "region" "sales" "sum" "T" (.rat 60)
    (by decide)

/-- C10: for a fixed file-system state and fixed arguments, two
invocations differ at most in `metadata.timestamp`, which records the
wall-clock time passed to the call; all other payload fields are the same
deterministic function of the inputs. -/
theorem responses_deterministic_up_to_timestamp
    (fs : FS) (fp gb ac fn now1 now2 : String) :
    (read_csv fs fp now1).map (fun p => { p with timestamp := "" }) =
        (read_csv fs fp now2).map (fun p => { p with timestamp := "" }) ∧
      (aggregate_csv fs fp gb ac fn now1).map (fun p => { p with timestamp := "" }) =
        (aggregate_csv fs fp gb ac fn now2).map (fun p => { p with timestamp := "" }) ∧
      ((read_csv fs fp now1).isSuccess = true →
        (read_csv fs fp now1).readTimestamp = some now1) ∧
      ((aggregate_csv fs fp gb ac fn now1).isSuccess = true →
        (aggregate_csv fs fp gb ac fn now1).aggTimestamp = some now1) := by
  refine ⟨?_, ?_, ?_, ?_⟩
  · rw [read_csv, read_csv]
    cases read_core fs fp <;> rfl
  · rw [aggregate_csv, aggregate_csv]
    cases aggregate_core fs fp gb ac fn <;> rfl
  · rw [read_csv]
    cases read_core fs fp <;> intro h
    · cases h
    · rfl
  · rw [aggregate_csv]
    cases aggregate_core fs fp gb ac fn <;> intro h
    · cases h
    · rfl

/-- Witness for C10's timestamp clauses at the `region,sales` example. -/
theorem responses_deterministic_up_to_timestamp_witness :
    (read_csv fsSales "sales.csv" "T").readTimestamp = some "T" ∧
      (aggregate_csv fsSales "sales.csv" "region" "sales" "sum" "T").aggTimestamp =
        some "T" :=
  ⟨(responses_deterministic_up_to_timestamp fsSales "sales.csv" "region" "sales" "sum"
      "T" "T").2.2.1 (by decide),
    (responses_deterministic_up_to_timestamp fsSales "sales.csv" "region" "sales" "sum"
      "T" "T").2.2.2 (by decide)⟩

end CsvServer
